import Mathlib

/-!
Shallow embedding of the Apex Capital ledger core (Netlify functions):
the deposit-webhook charge state machine and crediting path
(netlify/functions/deposit-webhook.js), the admin transaction status
transition (netlify/functions/admin-transaction-update.js), the balance
RPC call sites (ledger-transaction-create.js, admin-balance-adjust.js)
and the cookie-session verifier (_db.js getSession, auth-user.js
verifyPayload).  Money amounts are modelled as integers in abstract
fixed-point units; JavaScript truthiness on numeric and string fields is
modelled explicitly (0, the empty string, null and undefined are falsy).
-/

namespace Apex

/-- JavaScript `a || b` on nullable numbers: `null`/`undefined` and `0`
are falsy, every other number is truthy. -/
def jsOrI (a b : Option Int) : Option Int :=
  match a with
  | none => b
  | some n => if n = 0 then b else some n

/-- JavaScript `a || b` on nullable strings: `null`/`undefined` and the
empty string are falsy. -/
def jsOrS (a b : Option String) : Option String :=
  match a with
  | none => b
  | some s => if s = "" then b else some s

/-- One element of the `data.payments` array of a Coinbase Commerce
webhook event: `{status, transaction_id, value:{crypto:{amount}},
block:{confirmations}}`, each field possibly absent. -/
structure Payment where
  status : Option String
  transaction_id : Option String
  amount : Option Int
  confirmations : Option Int
deriving DecidableEq

def Payment.empty : Payment := ⟨none, none, none, none⟩

/-- A row of the `deposit_charges` table, as read and patched by the
webhook handler. -/
structure Charge where
  id : Nat
  coinbase_charge_id : String
  user_id : Nat
  asset : String
  amount_usd : Int
  crypto_amount : Option Int
  status : String
  confirmations : Int
  confirm_threshold : Int
  credited : Bool
  network_tx : Option String
  transaction_id : Option Nat
deriving DecidableEq

/-- A row of the `transactions` table (fields used by the claims; the
free-text `notes` column is not tracked). -/
structure Txn where
  id : Nat
  user_id : Nat
  type : String
  asset : String
  amount : Int
  usd_value : Option Int
  fee_amount : Option Int
  status : String
  tx_hash : Option String
deriving DecidableEq

/-- The `data` object of a webhook event
(`{id, code, metadata, payments}`; only the fields the handler reads). -/
structure EventData where
  id : Option String
  payments : List Payment
deriving DecidableEq

/-- `payments.find(p => p.status === CONFIRMED) || payments[payments.length-1] || {}`
from the `charge:confirmed` branch. -/
def pickConfirmedPayment (ps : List Payment) : Payment :=
  match ps.find? (fun p => p.status = some "CONFIRMED") with
  | some p => p
  | none => ps.getLast?.getD Payment.empty

/-- `parseFloat(confirmedPmt.value?.crypto?.amount || charge.crypto_amount || 0)`. -/
def extractAmount (p : Payment) (chargeAmount : Option Int) : Int :=
  (jsOrI p.amount chargeAmount).getD 0

/-- `parseInt(confirmedPmt.block?.confirmations || charge.confirm_threshold)`:
an absent or zero payload count falls back to the threshold (JavaScript
truthiness on `||`). -/
def extractConfs (p : Payment) (threshold : Int) : Int :=
  (jsOrI p.confirmations (some threshold)).getD 0

/-- Effects of one dispatch of a webhook event against a found charge
(the body of the `switch (type)` in deposit-webhook.js).  `chargePatch`
is the patched charge row when a patch is issued, `delta` the delta
applied through the `upsert_balance` RPC when that call succeeds,
`newTx` the inserted transaction row, `auditInc` the number of audit
rows written, and `threw` records that an exception escaped to the
surrounding catch (the RPC rejecting), aborting the remaining steps. -/
structure DispatchResult where
  chargePatch : Option Charge
  delta : Option Int
  newTx : Option Txn
  auditInc : Nat
  threw : Bool
deriving DecidableEq

/-- The event dispatch of deposit-webhook.js (`switch (type)` over the
found charge): `bal` is the stored balance of `(charge.user_id,
charge.asset)` (0 when the row is absent, as `upsert_balance`
auto-creates it), `nextTxId` the id the transactions insert returns. -/
def dispatch (charge : Charge) (bal : Int) (nextTxId : Nat)
    (type : String) (data : EventData) : DispatchResult :=
  if type = "charge:created" then
    ⟨some { charge with status := "pending" }, none, none, 0, false⟩
  else if type = "charge:pending" then
    let latest := data.payments.getLast?.getD Payment.empty
    ⟨some { charge with
              status := "detected"
              confirmations := 0
              network_tx := jsOrS latest.transaction_id none },
     none, none, 0, false⟩
  else if type = "charge:confirmed" then
    if charge.credited then
      ⟨none, none, none, 0, false⟩
    else
      let pmt := pickConfirmedPayment data.payments
      let cryptoAmount := extractAmount pmt charge.crypto_amount
      let networkTx := jsOrS pmt.transaction_id none
      let confs := extractConfs pmt charge.confirm_threshold
      if confs < charge.confirm_threshold then
        ⟨some { charge with
                  status := "confirming"
                  confirmations := confs
                  network_tx := networkTx },
         none, none, 0, false⟩
      else
        let delta := (jsOrI (some cryptoAmount) charge.crypto_amount).getD 0
        if bal + delta < 0 then
          ⟨none, none, none, 0, true⟩
        else
          ⟨some { charge with
                    status := "completed"
                    credited := true
                    confirmations := confs
                    network_tx := networkTx
                    transaction_id := some nextTxId },
           some delta,
           some { id := nextTxId
                  user_id := charge.user_id
                  type := "deposit"
                  asset := charge.asset
                  amount := delta
                  usd_value := some charge.amount_usd
                  fee_amount := none
                  status := "completed"
                  tx_hash := networkTx },
           1, false⟩
  else if type = "charge:failed" ∨ type = "charge:expired" then
    ⟨some { charge with status := "failed" }, none, none, 1, false⟩
  else if type = "charge:delayed" then
    ⟨some { charge with status := "underpaid" }, none, none, 0, false⟩
  else if type = "charge:resolved" then
    ⟨some { charge with status := "resolved" }, none, none, 0, false⟩
  else
    ⟨none, none, none, 0, false⟩

/-- State of one charge together with the balance row of its
`(user_id, asset)` key and the transactions table, as seen by a
sequence of sequentially delivered webhook events for that charge. -/
structure ChargeRun where
  charge : Charge
  balance : Int
  txs : List Txn
deriving DecidableEq

/-- One sequential webhook delivery for the charge: the handler re-reads
the charge row, dispatches, and the effects are applied. -/
def stepCharge (s : ChargeRun) (type : String) (data : EventData) : ChargeRun :=
  let r := dispatch s.charge s.balance s.txs.length type data
  { charge := r.chargePatch.getD s.charge,
    balance := s.balance + (r.delta.getD 0),
    txs := s.txs ++ r.newTx.toList }

/-- Sequential delivery of a list of `charge:confirmed` events. -/
def runConfirmed (s : ChargeRun) (evs : List EventData) : ChargeRun :=
  evs.foldl (fun t d => stepCharge t "charge:confirmed" d) s

/-- Confirmation count the `charge:confirmed` handler extracts from an
event, relative to the initial charge (the threshold is fixed at charge
creation and never patched). -/
def evConfs (s : ChargeRun) (d : EventData) : Int :=
  extractConfs (pickConfirmedPayment d.payments) s.charge.confirm_threshold

/-- Crypto amount the `charge:confirmed` handler extracts from an event,
relative to the initial charge (`crypto_amount` is never patched). -/
def evAmount (s : ChargeRun) (d : EventData) : Int :=
  extractAmount (pickConfirmedPayment d.payments) s.charge.crypto_amount

/-! ### Persistent store and the atomic balance primitive -/

/-- Key of a balance row: `(user_id, asset)`. -/
abbrev BalKey := Nat × String

/-- Read the stored balance row for a key, if present. -/
def lookupBal (bals : List (BalKey × Int)) (k : BalKey) : Option Int :=
  (bals.find? (fun e => e.1 = k)).map (fun e => e.2)

/-- Write the balance row for a key, auto-creating it when absent. -/
def setBal (bals : List (BalKey × Int)) (k : BalKey) (v : Int) :
    List (BalKey × Int) :=
  match bals with
  | [] => [(k, v)]
  | e :: rest => if e.1 = k then (k, v) :: rest else e :: setBal rest k v

/-- Modelled from the spec: the `upsert_balance` Postgres function called
through `supabase.rpc` is not part of the repository sources (only its
call sites are); per spec section 4.1 it atomically applies a delta to
the `(user, asset)` balance row, auto-creating the row at amount 0, and
fails with InsufficientFunds when the post-delta amount would be
negative, leaving the stored balance unchanged. -/
def upsert_balance (bals : List (BalKey × Int)) (k : BalKey) (delta : Int) :
    Except String (List (BalKey × Int) × Int) :=
  let cur := (lookupBal bals k).getD 0
  if cur + delta < 0 then .error "Insufficient balance"
  else .ok (setBal bals k (cur + delta), cur + delta)

/-! ### Webhook ingestion pipeline (deposit-webhook.js, full handler) -/

/-- The persistent store as the webhook pipeline sees it. -/
structure DB where
  charges : List Charge
  balances : List (BalKey × Int)
  txs : List Txn
  audits : Nat
deriving DecidableEq

/-- `payload.event` of a parsed webhook body: `{type, data}`, either
possibly absent (`const {type, data} = payload.event || {}`). -/
structure EventObj where
  type : Option String
  data : Option EventData
deriving DecidableEq

/-- The raw request body: JSON.parse throws on it, or it parses to the
JSON literal `null` (on which the later `payload.event` access throws a
TypeError), or it parses to any other value, whose `event` field may be
absent (property access on non-null non-object values yields undefined
in JavaScript, not an error). -/
inductive Body
  | malformed
  | parsedNull
  | parsed (ev : Option EventObj)
deriving DecidableEq

/-- An inbound webhook request.  `expectedSig` stands for the
HMAC-SHA256 hex digest of the raw body under the shared secret (the
digest function itself is kept abstract); `signature` is the
`x-cc-webhook-signature` header, absent when not sent;
`secretConfigured` records whether the webhook secret env var is set. -/
structure Request where
  secretConfigured : Bool
  expectedSig : String
  signature : Option String
  body : Body
deriving DecidableEq

/-- Outcome of the handler: an HTTP response together with the final
store, or an exception escaping the handler uncaught (the platform then
answers with a server error, not one of the coded responses). -/
inductive Outcome
  | resp (status : Nat) (db : DB)
  | exn (db : DB)
deriving DecidableEq

/-- Find the `deposit_charges` row with the given provider charge id. -/
def lookupCharge (cs : List Charge) (cid : String) : Option Charge :=
  cs.find? (fun c => c.coinbase_charge_id = cid)

/-- Patch the charge row with the given internal id. -/
def setChargeById (cs : List Charge) (cid : Nat) (c : Charge) : List Charge :=
  cs.map (fun x => if x.id = cid then c else x)

/-- Apply the effects of one event dispatch to the store. -/
def applyDispatch (db : DB) (charge : Charge) (r : DispatchResult) : DB :=
  let key : BalKey := (charge.user_id, charge.asset)
  { charges :=
      match r.chargePatch with
      | some c => setChargeById db.charges charge.id c
      | none => db.charges
    balances :=
      match r.delta with
      | some d => setBal db.balances key ((lookupBal db.balances key).getD 0 + d)
      | none => db.balances
    txs := db.txs ++ r.newTx.toList
    audits := db.audits + r.auditInc }

/-- The deposit-webhook handler (POST assumed): signature verification
with `crypto.timingSafeEqual` (which throws when the two buffers differ
in length — uncaught, as it sits before the try block), body parse, the
`payload.event` access (which throws a TypeError on a body parsing to
`null`, also before the try block), the event-shape check, charge
lookup, event dispatch, and the catch-all 200 acknowledgement. -/
def webhookHandler (req : Request) (db : DB) : Outcome :=
  if req.secretConfigured = false then .resp 500 db
  else
    let signature := req.signature.getD ""
    if signature.length ≠ req.expectedSig.length then .exn db
    else if signature ≠ req.expectedSig then .resp 401 db
    else
      match req.body with
      | .malformed => .resp 400 db
      | .parsedNull => .exn db
      | .parsed ev =>
        let eventObj := ev.getD ⟨none, none⟩
        match jsOrS eventObj.type none, eventObj.data with
        | some type, some data =>
          let cid := data.id.getD "undefined"
          match lookupCharge db.charges cid with
          | none => .resp 200 db
          | some charge =>
            let bal :=
              (lookupBal db.balances (charge.user_id, charge.asset)).getD 0
            .resp 200 (applyDispatch db charge
              (dispatch charge bal db.txs.length type data))
        | _, _ => .resp 400 db

/-- A parsed body is missing the event shape when `!type || !data` holds
(`type` absent or falsy, or `data` absent). -/
def missingShape : Body → Bool
  | .malformed => false
  | .parsedNull => false
  | .parsed ev =>
    let eventObj := ev.getD ⟨none, none⟩
    match jsOrS eventObj.type none, eventObj.data with
    | some _, some _ => false
    | _, _ => true

/-! ### Admin transaction status transition (admin-transaction-update.js) -/

/-- Store as the admin endpoints see it (transactions, balances, audit). -/
structure AdminDB where
  txs : List Txn
  balances : List (BalKey × Int)
  audits : Nat
deriving DecidableEq

/-- Response of an admin endpoint: HTTP status plus the final store. -/
structure AdminResult where
  status : Nat
  db : AdminDB
deriving DecidableEq

/-- `ALLOWED_STATUSES` of admin-transaction-update.js. -/
def ALLOWED_STATUSES : List String := ["completed", "processing", "failed", "cancelled"]

/-- The admin-transaction-update handler after admin authentication and
JSON parsing: status whitelist, transaction lookup, same-status no-op,
the refund guard for withdrawals moved to failed/cancelled (best-effort:
a rejected `upsert_balance` call is caught and the status write still
proceeds), and the status patch.  The refund delta is
`parseFloat(tx.amount) + (parseFloat(tx.fee_amount) || 0)`.  The
append-only notes patch is not tracked (the `Txn` model carries no
notes column). -/
def adminTransactionUpdate (db : AdminDB) (transactionId : Nat)
    (newStatus : String) : AdminResult :=
  if ALLOWED_STATUSES.contains newStatus = false then ⟨400, db⟩
  else
    match db.txs.find? (fun t => t.id = transactionId) with
    | none => ⟨400, db⟩
    | some tx =>
      let prevStatus := tx.status
      if prevStatus = newStatus then ⟨400, db⟩
      else
        let balances :=
          if tx.type = "withdrawal" ∧ (newStatus = "failed" ∨ newStatus = "cancelled") ∧
             prevStatus ≠ "failed" ∧ prevStatus ≠ "cancelled" then
            match upsert_balance db.balances (tx.user_id, tx.asset)
                    (tx.amount + tx.fee_amount.getD 0) with
            | .ok out => out.1
            | .error _ => db.balances
          else db.balances
        ⟨200,
         { txs := db.txs.map (fun t =>
             if t.id = transactionId then { t with status := newStatus } else t)
           balances := balances
           audits := db.audits + 1 }⟩

/-! ### Balance-mutating call sites (ledger-transaction-create.js,
admin-balance-adjust.js), from the point where validation has passed
(everything before the `upsert_balance` call is read-only). -/

/-- The mutation sequence of ledger-transaction-create.js: the atomic
balance update (deposits credit `amount`, withdrawals debit
`amount + fee`), mapped to a 400 Insufficient-balance response on
rejection with nothing written, then the transaction insert (deposits
start processing, withdrawals start pending; a zero fee is stored as
null via `fee_amount || null`) and the audit row.  `numAmount` and
`feeAmount` are the already-computed rounded amounts. -/
def transactionCreateCore (db : AdminDB) (userId : Nat)
    (type asset : String) (numAmount feeAmount : Int)
    (usdValue : Option Int) : AdminResult :=
  let delta := if type = "deposit" then numAmount else -(numAmount + feeAmount)
  match upsert_balance db.balances (userId, asset) delta with
  | .error _ => ⟨400, db⟩
  | .ok out =>
    let status := if type = "deposit" then "processing" else "pending"
    let tx : Txn :=
      { id := db.txs.length
        user_id := userId
        type := type
        asset := asset
        amount := numAmount
        usd_value := usdValue
        fee_amount := if feeAmount = 0 then none else some feeAmount
        status := status
        tx_hash := none }
    ⟨200, { txs := db.txs ++ [tx], balances := out.1, audits := db.audits + 1 }⟩

/-- The mutation sequence of admin-balance-adjust.js: the atomic balance
update with the signed delta, mapped to a 400 Insufficient-balance
response on rejection with nothing written, then the completed
adjustment transaction (`type` by the sign of the delta, `amount` its
absolute value) and the audit row. -/
def adminBalanceAdjustCore (db : AdminDB) (userId : Nat) (asset : String)
    (numDelta : Int) : AdminResult :=
  match upsert_balance db.balances (userId, asset) numDelta with
  | .error _ => ⟨400, db⟩
  | .ok out =>
    let tx : Txn :=
      { id := db.txs.length
        user_id := userId
        type := if numDelta > 0 then "deposit" else "withdrawal"
        asset := asset
        amount := |numDelta|
        usd_value := none
        fee_amount := none
        status := "completed"
        tx_hash := none }
    ⟨200, { txs := db.txs ++ [tx], balances := out.1, audits := db.audits + 1 }⟩

/-! ### Cookie session verification (_db.js getSession, auth-user.js
verifyPayload).  The HMAC-SHA256-base64url digest and the
base64url-decode-then-JSON.parse step are kept abstract: `hmacB64`
maps the data part to its digest, `decode` maps it to the decoded
payload, `none` standing for a thrown decoding error. -/

/-- Decoded session payload (fields the claims need). -/
structure SessionPayload where
  sub : String
  email : String
  exp : Option Int
deriving DecidableEq

/-- JavaScript `String.prototype.split` with a one-character separator,
over the underlying character list (splitting an empty string yields
one empty segment, as in JS). -/
def splitChar (c : Char) : List Char → List (List Char)
  | [] => [[]]
  | a :: rest =>
    match splitChar c rest with
    | [] => [[]]
    | g :: gs => if a = c then [] :: g :: gs else (a :: g) :: gs

/-- `split` on a string via its character list. -/
def jsSplit (s : String) (c : Char) : List String :=
  (splitChar c s.data).map (fun l => String.mk l)

/-- `trim` (cookie fragments are separated by `; `, so stripping the
space character is what the handler relies on). -/
def jsTrim (s : String) : String :=
  ⟨((s.data.dropWhile (fun ch => ch = ' ')).reverse.dropWhile
      (fun ch => ch = ' ')).reverse⟩

/-- `startsWith` via the character lists. -/
def jsStartsWith (s pre : String) : Bool := pre.data.isPrefixOf s.data

/-- `slice(n)` via the character list. -/
def jsDrop (s : String) (n : Nat) : String := ⟨s.data.drop n⟩

/-- `parseCookie` of auth-user.js (the same inline logic appears in
getSession): split the header on `;`, trim, find the first
`name=` entry, return the value after the `=`. -/
def parseCookie (header : String) (name : String) : Option String :=
  (((jsSplit header ';').map jsTrim).find?
    (fun s => jsStartsWith s (name ++ "="))).map
    (fun s => jsDrop s (name.length + 1))

/-- The shared token check of verifyPayload and getSession, with thrown
exceptions surfaced as `.error`: split on the dot, reject falsy data or
signature parts, `crypto.timingSafeEqual` (throws on length mismatch,
else constant-time equality), then decode (JSON.parse throws on bad
payloads). -/
def verifyTokenE (hmacB64 : String → String)
    (decode : String → Option SessionPayload) (token : String) :
    Except Unit (Option SessionPayload) :=
  let parts := jsSplit token '.'
  let data := parts.headD ""
  match parts.get? 1 with
  | none => .ok none
  | some sig =>
    if data = "" then .ok none
    else if sig = "" then .ok none
    else
      let expected := hmacB64 data
      if sig.length ≠ expected.length then .error ()
      else if sig ≠ expected then .ok none
      else
        match decode data with
        | none => .error ()
        | some payload => .ok (some payload)

/-- `verifyPayload` of auth-user.js: the token check with every thrown
exception caught and turned into null. -/
def verifyPayload (hmacB64 : String → String)
    (decode : String → Option SessionPayload) (token : String) :
    Option SessionPayload :=
  match verifyTokenE hmacB64 decode token with
  | .error _ => none
  | .ok r => r

/-- The expiry check `if (payload.exp && Date.now()/1000 > payload.exp)
return null` (a zero or absent exp is falsy and skips the check). -/
def checkExp (now : Int) (payload : SessionPayload) : Option SessionPayload :=
  match payload.exp with
  | none => some payload
  | some e => if e ≠ 0 ∧ now > e then none else some payload

/-- `getSession` of _db.js: cookie extraction, then the token check with
every exception caught into null, then the expiry check. -/
def getSession (hmacB64 : String → String)
    (decode : String → Option SessionPayload) (now : Int)
    (cookieHeader : Option String) : Option SessionPayload :=
  match parseCookie (cookieHeader.getD "") "apex_session" with
  | none => none
  | some token =>
    match verifyTokenE hmacB64 decode token with
    | .error _ => none
    | .ok none => none
    | .ok (some payload) => checkExp now payload

/-- The auth-user.js handler: 401 on a missing or empty cookie value, on
a failed verifyPayload, or on an expired payload; 200 otherwise. -/
def authUserHandler (hmacB64 : String → String)
    (decode : String → Option SessionPayload) (now : Int)
    (cookieHeader : Option String) : Nat :=
  match parseCookie (cookieHeader.getD "") "apex_session" with
  | none => 401
  | some token =>
    if token = "" then 401
    else
      match verifyPayload hmacB64 decode token with
      | none => 401
      | some payload =>
        match payload.exp with
        | none => 200
        | some e => if e ≠ 0 ∧ now > e then 401 else 200

/-! ### Step lemmas for the charge state machine -/

/-- The delta handed to `upsert_balance` on the credit path,
`cryptoAmount || charge.crypto_amount`, always coincides with the
extracted crypto amount. -/
theorem credit_delta_eq (p : Payment) (ca : Option Int) :
    (jsOrI (some (extractAmount p ca)) ca).getD 0 = extractAmount p ca := by
  unfold extractAmount jsOrI
  cases hpa : p.amount with
  | none =>
    cases ca with
    | none => simp
    | some m =>
      by_cases hm : m = 0 <;> simp [hm]
  | some n =>
    by_cases hn : n = 0
    · cases ca with
      | none => simp [hn]
      | some m => by_cases hm : m = 0 <;> simp [hn, hm]
    · simp [hn]

theorem dispatch_confirmed_credited (c : Charge) (bal : Int) (n : Nat)
    (d : EventData) (h : c.credited = true) :
    dispatch c bal n "charge:confirmed" d = ⟨none, none, none, 0, false⟩ := by
  simp [dispatch, h]

theorem stepCharge_confirmed_credited (s : ChargeRun) (d : EventData)
    (h : s.charge.credited = true) :
    stepCharge s "charge:confirmed" d = s := by
  simp [stepCharge, dispatch_confirmed_credited _ _ _ _ h, Option.getD]

theorem runConfirmed_credited (s : ChargeRun) (evs : List EventData)
    (h : s.charge.credited = true) :
    runConfirmed s evs = s := by
  induction evs with
  | nil => rfl
  | cons e tl ih =>
    show runConfirmed (stepCharge s "charge:confirmed" e) tl = s
    rw [stepCharge_confirmed_credited s e h, ih]

theorem stepCharge_confirmed_below (s : ChargeRun) (d : EventData)
    (hcred : s.charge.credited = false)
    (hlt : evConfs s d < s.charge.confirm_threshold) :
    stepCharge s "charge:confirmed" d =
      { s with charge :=
          { s.charge with
              status := "confirming"
              confirmations := evConfs s d
              network_tx :=
                jsOrS (pickConfirmedPayment d.payments).transaction_id none } } := by
  unfold evConfs at hlt
  simp [stepCharge, dispatch, hcred, hlt, evConfs]

theorem stepCharge_confirmed_credit (s : ChargeRun) (d : EventData)
    (hcred : s.charge.credited = false)
    (hge : s.charge.confirm_threshold ≤ evConfs s d)
    (hbal : 0 ≤ s.balance + evAmount s d) :
    stepCharge s "charge:confirmed" d =
      { charge :=
          { s.charge with
              status := "completed"
              credited := true
              confirmations := evConfs s d
              network_tx :=
                jsOrS (pickConfirmedPayment d.payments).transaction_id none
              transaction_id := some s.txs.length }
        balance := s.balance + evAmount s d
        txs := s.txs ++
          [{ id := s.txs.length
             user_id := s.charge.user_id
             type := "deposit"
             asset := s.charge.asset
             amount := evAmount s d
             usd_value := some s.charge.amount_usd
             fee_amount := none
             status := "completed"
             tx_hash :=
               jsOrS (pickConfirmedPayment d.payments).transaction_id none }] } := by
  have hnlt : ¬ evConfs s d < s.charge.confirm_threshold := not_lt.mpr hge
  unfold evConfs at hnlt
  have hdelta := credit_delta_eq (pickConfirmedPayment d.payments) s.charge.crypto_amount
  have hnneg : ¬ s.balance + extractAmount (pickConfirmedPayment d.payments)
      s.charge.crypto_amount < 0 := by
    unfold evAmount at hbal
    omega
  simp [stepCharge, dispatch, hcred, hnlt, hnneg, hdelta, evConfs, evAmount]

/-- Main induction for the exactly-once credit: from an uncredited state
with a non-negative balance and non-negative event amounts, a sequence
of confirmed events containing at least one threshold-reaching event
ends credited and completed, with exactly one transaction row appended
and the balance increased by the amount of one witnessed event. -/
theorem runConfirmed_credits_once (evs : List EventData) :
    ∀ s : ChargeRun, s.charge.credited = false → 0 ≤ s.balance →
    (∀ d ∈ evs, 0 ≤ evAmount s d) →
    (∃ d ∈ evs, s.charge.confirm_threshold ≤ evConfs s d) →
    (runConfirmed s evs).charge.credited = true ∧
    (runConfirmed s evs).charge.status = "completed" ∧
    (runConfirmed s evs).txs.length = s.txs.length + 1 ∧
    ∃ d ∈ evs, s.charge.confirm_threshold ≤ evConfs s d ∧
      (runConfirmed s evs).balance = s.balance + evAmount s d := by
  induction evs with
  | nil =>
    intro s _ _ _ helig
    simp at helig
  | cons e tl ih =>
    intro s hcred hbal hamts helig
    have hrc : runConfirmed s (e :: tl) =
        runConfirmed (stepCharge s "charge:confirmed" e) tl := rfl
    by_cases hlt : evConfs s e < s.charge.confirm_threshold
    · have hstep := stepCharge_confirmed_below s e hcred hlt
      have hcred1 : (stepCharge s "charge:confirmed" e).charge.credited = false := by
        rw [hstep]; exact hcred
      have hbal1 : (stepCharge s "charge:confirmed" e).balance = s.balance := by
        rw [hstep]
      have htxs1 : (stepCharge s "charge:confirmed" e).txs = s.txs := by
        rw [hstep]
      have hca1 : (stepCharge s "charge:confirmed" e).charge.crypto_amount =
          s.charge.crypto_amount := by rw [hstep]
      have hth1 : (stepCharge s "charge:confirmed" e).charge.confirm_threshold =
          s.charge.confirm_threshold := by rw [hstep]
      have hevA : ∀ d, evAmount (stepCharge s "charge:confirmed" e) d = evAmount s d := by
        intro d; unfold evAmount; rw [hca1]
      have hevC : ∀ d, evConfs (stepCharge s "charge:confirmed" e) d = evConfs s d := by
        intro d; unfold evConfs; rw [hth1]
      have helig2 : ∃ d ∈ tl, s.charge.confirm_threshold ≤ evConfs s d := by
        obtain ⟨d, hd, hdc⟩ := helig
        rcases List.mem_cons.mp hd with h | h
        · exact absurd hdc (by rw [h]; exact not_le.mpr hlt)
        · exact ⟨d, h, hdc⟩
      have key := ih (stepCharge s "charge:confirmed" e) hcred1
        (by rw [hbal1]; exact hbal)
        (by intro d hd; rw [hevA d]; exact hamts d (List.mem_cons_of_mem e hd))
        (by
          obtain ⟨d, hd, hdc⟩ := helig2
          exact ⟨d, hd, by rw [hevC d, hth1]; exact hdc⟩)
      rw [hrc]
      refine ⟨key.1, key.2.1, ?_, ?_⟩
      · rw [key.2.2.1, htxs1]
      · obtain ⟨d, hd, hdc, hdb⟩ := key.2.2.2
        rw [hevC d, hth1] at hdc
        rw [hbal1, hevA d] at hdb
        exact ⟨d, List.mem_cons_of_mem e hd, hdc, hdb⟩
    · have hge : s.charge.confirm_threshold ≤ evConfs s e := not_lt.mp hlt
      have hamt : 0 ≤ evAmount s e := hamts e (List.mem_cons_self e tl)
      have hstep := stepCharge_confirmed_credit s e hcred hge (by omega)
      rw [hrc, hstep, runConfirmed_credited _ tl (by simp)]
      refine ⟨by simp, by simp, by simp, e, List.mem_cons_self e tl, hge, by simp⟩

/-! ### Concrete sample data for witnesses and counterexamples -/

/-- A freshly created BTC deposit charge: threshold 3, 5 units expected,
not yet credited. -/
def cCharge : Charge :=
  { id := 1
    coinbase_charge_id := "cb1"
    user_id := 7
    asset := "BTC"
    amount_usd := 600
    crypto_amount := some 5
    status := "pending"
    confirmations := 0
    confirm_threshold := 3
    credited := false
    network_tx := none
    transaction_id := none }

/-- A CONFIRMED payment reporting `n` confirmations and amount `a`. -/
def pConf (n a : Int) : Payment := ⟨some "CONFIRMED", some "0xabc", some a, some n⟩

/-- Event data carrying one confirmed payment. -/
def dConf (n a : Int) : EventData := ⟨some "cb1", [pConf n a]⟩

/-- The fresh charge with a zero balance and no transactions. -/
def sFresh : ChargeRun := ⟨cCharge, 0, []⟩

/-! ### C1 -/

/-- C1: for one charge under sequentially delivered `charge:confirmed`
events, once `credited` is true every further confirmed event is a
complete no-op (no balance mutation, no transaction row, no charge
patch); and from an uncredited state, any sequence of confirmed events
containing a threshold-reaching event credits exactly once — exactly one
transaction row is appended, the balance grows by the amount of one
delivered event, and the charge ends `credited = true`,
`status = completed`. -/
theorem C1_confirmed_credits_exactly_once :
    (∀ (s : ChargeRun) (evs : List EventData), s.charge.credited = true →
      runConfirmed s evs = s) ∧
    (∀ (s : ChargeRun) (evs : List EventData),
      s.charge.credited = false → 0 ≤ s.balance →
      (∀ d ∈ evs, 0 ≤ evAmount s d) →
      (∃ d ∈ evs, s.charge.confirm_threshold ≤ evConfs s d) →
      (runConfirmed s evs).charge.credited = true ∧
      (runConfirmed s evs).charge.status = "completed" ∧
      (runConfirmed s evs).txs.length = s.txs.length + 1 ∧
      ∃ d ∈ evs, s.charge.confirm_threshold ≤ evConfs s d ∧
        (runConfirmed s evs).balance = s.balance + evAmount s d) :=
  ⟨fun s evs h => runConfirmed_credited s evs h,
   fun s evs h1 h2 h3 h4 => runConfirmed_credits_once evs s h1 h2 h3 h4⟩

/-- Witness for C1 at the spec scenario: threshold 3, event stream
confirmed(1), confirmed(3), confirmed(3) credits 5 units exactly once;
and a further confirmed event on the credited result is a no-op. -/
theorem C1_confirmed_credits_exactly_once_witness :
    ((runConfirmed sFresh [dConf 1 5, dConf 3 5, dConf 3 5]).charge.credited = true ∧
     (runConfirmed sFresh [dConf 1 5, dConf 3 5, dConf 3 5]).charge.status = "completed" ∧
     (runConfirmed sFresh [dConf 1 5, dConf 3 5, dConf 3 5]).txs.length = sFresh.txs.length + 1 ∧
     ∃ d ∈ [dConf 1 5, dConf 3 5, dConf 3 5],
       sFresh.charge.confirm_threshold ≤ evConfs sFresh d ∧
       (runConfirmed sFresh [dConf 1 5, dConf 3 5, dConf 3 5]).balance =
         sFresh.balance + evAmount sFresh d) ∧
    runConfirmed (runConfirmed sFresh [dConf 1 5, dConf 3 5, dConf 3 5]) [dConf 3 5] =
      runConfirmed sFresh [dConf 1 5, dConf 3 5, dConf 3 5] :=
  ⟨C1_confirmed_credits_exactly_once.2 sFresh [dConf 1 5, dConf 3 5, dConf 3 5]
    (by decide) (by decide) (by decide) ⟨dConf 3 5, by decide, by decide⟩,
   C1_confirmed_credits_exactly_once.1 _ [dConf 3 5] (by decide)⟩

/-! ### C4 -/

/-- Counterexample to C4: a `charge:created` event delivered to a
charge whose status is `completed` is not an idempotent no-op — it
regresses the status back to `pending`. -/
theorem C4_counterexample_created_regresses :
    (⟨{ cCharge with status := "completed", credited := true }, 5, []⟩ : ChargeRun).charge.status
      = "completed" ∧
    (stepCharge ⟨{ cCharge with status := "completed", credited := true }, 5, []⟩
      "charge:created" ⟨some "cb1", []⟩).charge.status = "pending" := by
  decide

/-- C4 as amended: `charge:created` unconditionally sets the status to
`pending` and `charge:pending` unconditionally sets it to `detected`
(with confirmations 0), whatever the current status — so stale events do
move terminal charges backwards — but neither event ever touches the
`credited` flag, the balance, or the transactions table. -/
theorem C4_amended_created_pending_unconditional :
    (∀ (s : ChargeRun) (d : EventData),
      (stepCharge s "charge:created" d).charge.status = "pending" ∧
      (stepCharge s "charge:created" d).charge.credited = s.charge.credited ∧
      (stepCharge s "charge:created" d).charge.confirmations = s.charge.confirmations ∧
      (stepCharge s "charge:created" d).balance = s.balance ∧
      (stepCharge s "charge:created" d).txs = s.txs) ∧
    (∀ (s : ChargeRun) (d : EventData),
      (stepCharge s "charge:pending" d).charge.status = "detected" ∧
      (stepCharge s "charge:pending" d).charge.confirmations = 0 ∧
      (stepCharge s "charge:pending" d).charge.credited = s.charge.credited ∧
      (stepCharge s "charge:pending" d).balance = s.balance ∧
      (stepCharge s "charge:pending" d).txs = s.txs) := by
  constructor
  · intro s d
    refine ⟨?_, ?_, ?_, ?_, ?_⟩ <;> simp [stepCharge, dispatch]
  · intro s d
    refine ⟨?_, ?_, ?_, ?_, ?_⟩ <;> simp [stepCharge, dispatch]

/-! ### C8 -/

/-- Counterexample to C8: a late `charge:pending` event overwrites a
previously recorded confirmation count of 2 with 0 — the stored count
decreases, and 0 is not taken from the payload. -/
theorem C8_counterexample_pending_resets_count :
    (⟨{ cCharge with status := "confirming", confirmations := 2 }, 0, []⟩ : ChargeRun).charge.confirmations = 2 ∧
    (stepCharge ⟨{ cCharge with status := "confirming", confirmations := 2 }, 0, []⟩
      "charge:pending" ⟨some "cb1", []⟩).charge.confirmations = 0 := by
  decide

/-- C8 as amended: a `charge:pending` event always resets the stored
confirmation count to 0 (so a late pending event can decrease it); a
`charge:confirmed` event on an uncredited charge persists the payload
count verbatim when it is a nonzero integer, and substitutes the
threshold when the payload count is 0 or absent (the JavaScript `||`
fallback), in which case the charge credits. -/
theorem C8_amended_confirmation_count :
    (∀ (s : ChargeRun) (d : EventData),
      (stepCharge s "charge:pending" d).charge.confirmations = 0) ∧
    (∀ (s : ChargeRun) (d : EventData) (c : Int),
      s.charge.credited = false →
      (pickConfirmedPayment d.payments).confirmations = some c → c ≠ 0 →
      c < s.charge.confirm_threshold →
      (stepCharge s "charge:confirmed" d).charge.confirmations = c) ∧
    (∀ (s : ChargeRun) (d : EventData) (c : Int),
      s.charge.credited = false →
      (pickConfirmedPayment d.payments).confirmations = some c → c ≠ 0 →
      s.charge.confirm_threshold ≤ c →
      0 ≤ s.balance + evAmount s d →
      (stepCharge s "charge:confirmed" d).charge.confirmations = c) ∧
    (∀ (s : ChargeRun) (d : EventData),
      s.charge.credited = false →
      ((pickConfirmedPayment d.payments).confirmations = none ∨
       (pickConfirmedPayment d.payments).confirmations = some 0) →
      0 ≤ s.balance + evAmount s d →
      (stepCharge s "charge:confirmed" d).charge.confirmations =
        s.charge.confirm_threshold) := by
  refine ⟨?_, ?_, ?_, ?_⟩
  · intro s d
    simp [stepCharge, dispatch]
  · intro s d c hcred hc hc0 hlt
    have hev : evConfs s d = c := by
      unfold evConfs extractConfs jsOrI
      rw [hc]
      simp [hc0]
    rw [stepCharge_confirmed_below s d hcred (by rw [hev]; exact hlt), hev]
  · intro s d c hcred hc hc0 hge hbal
    have hev : evConfs s d = c := by
      unfold evConfs extractConfs jsOrI
      rw [hc]
      simp [hc0]
    rw [stepCharge_confirmed_credit s d hcred (by rw [hev]; exact hge) hbal, hev]
  · intro s d hcred hc hbal
    have hev : evConfs s d = s.charge.confirm_threshold := by
      unfold evConfs extractConfs jsOrI
      rcases hc with h | h <;> rw [h] <;> simp
    rw [stepCharge_confirmed_credit s d hcred (by rw [hev]) hbal, hev]

/-- Witness for C8 as amended: pending resets 2 to 0; confirmed with a
reported count of 2 persists 2; confirmed with a reported count of 4
persists 4; confirmed with a reported count of 0 stores the threshold 3
instead. -/
theorem C8_amended_confirmation_count_witness :
    (stepCharge ⟨{ cCharge with confirmations := 2 }, 0, []⟩ "charge:pending"
      ⟨some "cb1", []⟩).charge.confirmations = 0 ∧
    (stepCharge sFresh "charge:confirmed" (dConf 2 5)).charge.confirmations = 2 ∧
    (stepCharge sFresh "charge:confirmed" (dConf 4 5)).charge.confirmations = 4 ∧
    (stepCharge sFresh "charge:confirmed" (dConf 0 5)).charge.confirmations = 3 :=
  ⟨C8_amended_confirmation_count.1 _ _,
   C8_amended_confirmation_count.2.1 sFresh (dConf 2 5) 2 (by decide) (by decide)
     (by decide) (by decide),
   C8_amended_confirmation_count.2.2.1 sFresh (dConf 4 5) 4 (by decide) (by decide)
     (by decide) (by decide) (by decide),
   C8_amended_confirmation_count.2.2.2 sFresh (dConf 0 5) (by decide)
     (Or.inr (by decide)) (by decide)⟩

/-! ### C2 -/

/-- Counterexample to C2: on an uncredited charge with threshold 3, a
`charge:confirmed` event whose payload reports a confirmation count of
0 — strictly below the threshold — does not merely persist the count: the
JavaScript `0 || threshold` fallback substitutes the threshold, the
threshold check passes, `credited` is set and the balance is credited. -/
theorem C2_counterexample_zero_count_credits :
    sFresh.charge.credited = false ∧
    sFresh.charge.confirm_threshold = 3 ∧
    (pickConfirmedPayment (dConf 0 5).payments).confirmations = some 0 ∧
    (stepCharge sFresh "charge:confirmed" (dConf 0 5)).charge.credited = true ∧
    (stepCharge sFresh "charge:confirmed" (dConf 0 5)).balance = sFresh.balance + 5 ∧
    (stepCharge sFresh "charge:confirmed" (dConf 0 5)).txs.length = 1 := by
  decide

/-- C2 as amended: on an uncredited charge, a `charge:confirmed` event
whose payload reports a nonzero confirmation count strictly below the
threshold never sets `credited` and applies no balance delta — it only
sets the status to `confirming` and persists the reported count — and
replaying a confirmed event afterwards with extracted confirmations at
or above the threshold still credits exactly once, further replays being
no-ops.  (Payloads reporting a count of 0 or omitting it fall back to
the threshold and credit immediately, as the counterexample shows.) -/
theorem C2_amended_below_threshold_roundtrip :
    ∀ (s : ChargeRun) (d1 d2 d3 : EventData) (c : Int),
      s.charge.credited = false → 0 ≤ s.balance →
      (pickConfirmedPayment d1.payments).confirmations = some c → c ≠ 0 →
      c < s.charge.confirm_threshold →
      s.charge.confirm_threshold ≤ evConfs s d2 → 0 ≤ evAmount s d2 →
      ((stepCharge s "charge:confirmed" d1).charge.credited = false ∧
       (stepCharge s "charge:confirmed" d1).balance = s.balance ∧
       (stepCharge s "charge:confirmed" d1).txs = s.txs ∧
       (stepCharge s "charge:confirmed" d1).charge.status = "confirming" ∧
       (stepCharge s "charge:confirmed" d1).charge.confirmations = c) ∧
      ((stepCharge (stepCharge s "charge:confirmed" d1) "charge:confirmed" d2).charge.credited = true ∧
       (stepCharge (stepCharge s "charge:confirmed" d1) "charge:confirmed" d2).balance =
         s.balance + evAmount s d2 ∧
       (stepCharge (stepCharge s "charge:confirmed" d1) "charge:confirmed" d2).txs.length =
         s.txs.length + 1) ∧
      stepCharge (stepCharge (stepCharge s "charge:confirmed" d1) "charge:confirmed" d2)
          "charge:confirmed" d3 =
        stepCharge (stepCharge s "charge:confirmed" d1) "charge:confirmed" d2 := by
  intro s d1 d2 d3 c hcred hbal hc hc0 hclt hge hamt
  have hev1 : evConfs s d1 = c := by
    unfold evConfs extractConfs jsOrI
    rw [hc]
    simp [hc0]
  have hstep1 := stepCharge_confirmed_below s d1 hcred (by rw [hev1]; exact hclt)
  have hcred1 : (stepCharge s "charge:confirmed" d1).charge.credited = false := by
    rw [hstep1]; exact hcred
  have hbal1 : (stepCharge s "charge:confirmed" d1).balance = s.balance := by rw [hstep1]
  have htxs1 : (stepCharge s "charge:confirmed" d1).txs = s.txs := by rw [hstep1]
  have hca1 : (stepCharge s "charge:confirmed" d1).charge.crypto_amount =
      s.charge.crypto_amount := by rw [hstep1]
  have hth1 : (stepCharge s "charge:confirmed" d1).charge.confirm_threshold =
      s.charge.confirm_threshold := by rw [hstep1]
  have hevA2 : evAmount (stepCharge s "charge:confirmed" d1) d2 = evAmount s d2 := by
    unfold evAmount; rw [hca1]
  have hevC2 : evConfs (stepCharge s "charge:confirmed" d1) d2 = evConfs s d2 := by
    unfold evConfs; rw [hth1]
  have hstep2 := stepCharge_confirmed_credit (stepCharge s "charge:confirmed" d1) d2
    hcred1 (by rw [hevC2, hth1]; exact hge)
    (by rw [hbal1, hevA2]; omega)
  refine ⟨⟨hcred1, hbal1, htxs1, by rw [hstep1], by rw [hstep1, hev1]⟩, ⟨?_, ?_, ?_⟩, ?_⟩
  · rw [hstep2]
  · rw [hstep2]
    simp [hbal1, hevA2]
  · rw [hstep2]
    simp [htxs1]
  · refine stepCharge_confirmed_credited _ d3 ?_
    rw [hstep2]

/-- Witness for C2 as amended: threshold 3, confirmed(2) then
confirmed(3) then a duplicate confirmed(3): the first event only records
the count, the second credits 5 units, the third is a no-op. -/
theorem C2_amended_below_threshold_roundtrip_witness :
    ((stepCharge sFresh "charge:confirmed" (dConf 2 5)).charge.credited = false ∧
     (stepCharge sFresh "charge:confirmed" (dConf 2 5)).balance = sFresh.balance ∧
     (stepCharge sFresh "charge:confirmed" (dConf 2 5)).txs = sFresh.txs ∧
     (stepCharge sFresh "charge:confirmed" (dConf 2 5)).charge.status = "confirming" ∧
     (stepCharge sFresh "charge:confirmed" (dConf 2 5)).charge.confirmations = 2) ∧
    ((stepCharge (stepCharge sFresh "charge:confirmed" (dConf 2 5)) "charge:confirmed"
        (dConf 3 5)).charge.credited = true ∧
     (stepCharge (stepCharge sFresh "charge:confirmed" (dConf 2 5)) "charge:confirmed"
        (dConf 3 5)).balance = sFresh.balance + evAmount sFresh (dConf 3 5) ∧
     (stepCharge (stepCharge sFresh "charge:confirmed" (dConf 2 5)) "charge:confirmed"
        (dConf 3 5)).txs.length = sFresh.txs.length + 1) ∧
    stepCharge (stepCharge (stepCharge sFresh "charge:confirmed" (dConf 2 5))
        "charge:confirmed" (dConf 3 5)) "charge:confirmed" (dConf 3 5) =
      stepCharge (stepCharge sFresh "charge:confirmed" (dConf 2 5)) "charge:confirmed"
        (dConf 3 5) :=
  C2_amended_below_threshold_roundtrip sFresh (dConf 2 5) (dConf 3 5) (dConf 3 5) 2
    (by decide) (by decide) (by decide) (by decide) (by decide) (by decide) (by decide)

/-! ### Webhook pipeline: C5, C6, C9 -/

/-- With the secret configured and a valid signature, the handler
reduces to parse, shape check, lookup and dispatch. -/
theorem webhookHandler_valid (req : Request) (db : DB)
    (hsec : req.secretConfigured = true)
    (hsig : req.signature.getD "" = req.expectedSig) :
    webhookHandler req db =
      match req.body with
      | .malformed => .resp 400 db
      | .parsedNull => .exn db
      | .parsed ev =>
        let eventObj := ev.getD ⟨none, none⟩
        match jsOrS eventObj.type none, eventObj.data with
        | some type, some data =>
          let cid := data.id.getD "undefined"
          match lookupCharge db.charges cid with
          | none => .resp 200 db
          | some charge =>
            let bal := (lookupBal db.balances (charge.user_id, charge.asset)).getD 0
            .resp 200 (applyDispatch db charge
              (dispatch charge bal db.txs.length type data))
        | _, _ => .resp 400 db := by
  unfold webhookHandler
  rw [hsec, hsig]
  simp

/-- A 64-character hex string, the length and shape of an HMAC-SHA256
hex digest. -/
def hexSig : String :=
  "0123456789abcdef0123456789abcdef0123456789abcdef0123456789abcdef"

/-- A second 64-character hex string, distinct from `hexSig`. -/
def hexSig2 : String :=
  "fedcba9876543210fedcba9876543210fedcba9876543210fedcba9876543210"

/-- A store holding the sample charge and its zero balance row. -/
def db0 : DB :=
  { charges := [cCharge], balances := [((7, "BTC"), 0)], txs := [], audits := 0 }

/-- A request whose claimed signature header is empty while the digest
of its body is 64 characters long. -/
def reqEmptySig : Request :=
  { secretConfigured := true, expectedSig := hexSig, signature := some "",
    body := Body.malformed }

/-- A request whose claimed signature has the right length but the
wrong value. -/
def reqWrongSig : Request :=
  { secretConfigured := true, expectedSig := hexSig, signature := some hexSig2,
    body := Body.malformed }

/-- Counterexample to C5: an empty claimed signature header (length 0,
while the digest has length 64) does not produce the 401 response — the
length mismatch makes `crypto.timingSafeEqual` throw before the try
block, so the exception escapes the handler uncaught. -/
theorem C5_counterexample_empty_signature_throws :
    ("" : String) ≠ hexSig ∧
    webhookHandler reqEmptySig db0 = Outcome.exn db0 ∧
    webhookHandler reqEmptySig db0 ≠ Outcome.resp 401 db0 := by
  decide

/-- C5 as amended: with the secret configured, a claimed signature of
the same byte length as the expected digest that differs from it is
answered 401 with the store untouched and the body never parsed; a
claimed signature of a different length makes the comparison throw an
uncaught exception (no coded response), still with the store untouched
and the body never parsed. -/
theorem C5_amended_signature_mismatch :
    (∀ (req : Request) (db : DB),
      req.secretConfigured = true →
      (req.signature.getD "").length = req.expectedSig.length →
      req.signature.getD "" ≠ req.expectedSig →
      webhookHandler req db = Outcome.resp 401 db) ∧
    (∀ (req : Request) (db : DB),
      req.secretConfigured = true →
      (req.signature.getD "").length ≠ req.expectedSig.length →
      webhookHandler req db = Outcome.exn db) := by
  constructor
  · intro req db hsec hlen hne
    unfold webhookHandler
    rw [hsec]
    simp [hlen, hne]
  · intro req db hsec hlen
    unfold webhookHandler
    rw [hsec]
    simp [hlen]

/-- Witness for C5 as amended: a same-length wrong signature gets 401;
an empty signature makes the handler throw. -/
theorem C5_amended_signature_mismatch_witness :
    webhookHandler reqWrongSig db0 = Outcome.resp 401 db0 ∧
    webhookHandler reqEmptySig db0 = Outcome.exn db0 :=
  ⟨C5_amended_signature_mismatch.1 reqWrongSig db0 (by decide) (by decide) (by decide),
   C5_amended_signature_mismatch.2 reqEmptySig db0 (by decide) (by decide)⟩

/-- A validly signed request whose body parses to `{}` — no `event`
field at all. -/
def reqEmptyBody : Request :=
  { secretConfigured := true, expectedSig := hexSig, signature := some hexSig,
    body := Body.parsed (some ⟨none, none⟩) }

/-- A validly signed request carrying a confirmed event for the sample
charge. -/
def reqConfirmed : Request :=
  { secretConfigured := true, expectedSig := hexSig, signature := some hexSig,
    body := Body.parsed (some ⟨some "charge:confirmed", some (dConf 3 5)⟩) }

/-- A validly signed request whose body is the parsable JSON literal
`null`. -/
def reqNullBody : Request :=
  { secretConfigured := true, expectedSig := hexSig, signature := some hexSig,
    body := Body.parsedNull }

/-- Counterexample to C6: a validly signed request whose body is
parsable JSON (`{}`) but misses the event type and data is answered
400, although the claim says only unparsable bodies get 400; and a
validly signed request whose body is the parsable JSON literal `null`
is not answered with a coded response at all — the `payload.event`
access throws a TypeError before the try block and the exception leaves
the handler uncaught. -/
theorem C6_counterexample_parsable_body_400 :
    (reqEmptyBody.body ≠ Body.malformed ∧
     webhookHandler reqEmptyBody db0 = Outcome.resp 400 db0) ∧
    (reqNullBody.body ≠ Body.malformed ∧
     webhookHandler reqNullBody db0 = Outcome.exn db0) := by
  decide

/-- C6 as amended: for every validly signed request whose body does not
parse to the JSON literal `null`, the handler returns a coded response,
and that response is 400 exactly when the body is unparsable JSON or
parses without an event type/data pair (`!type || !data`); in every
other such case — including exceptions inside lookup/dispatch, which
are caught — it is 200.  A body parsing to `null` escapes this: the
`payload.event` access throws before the try block and the handler
exits with an uncaught exception, the store untouched. -/
theorem C6_amended_ack_or_badreq :
    ∀ (req : Request) (db : DB),
      req.secretConfigured = true →
      req.signature.getD "" = req.expectedSig →
      (req.body = Body.parsedNull → webhookHandler req db = Outcome.exn db) ∧
      (req.body ≠ Body.parsedNull →
        ∃ st db2, webhookHandler req db = Outcome.resp st db2 ∧
          ((st = 400) ↔ (req.body = Body.malformed ∨ missingShape req.body = true)) ∧
          (st = 400 ∨ st = 200)) := by
  intro req db hsec hsig
  rw [webhookHandler_valid req db hsec hsig]
  constructor
  · intro hb
    rw [hb]
  intro hnull
  cases hb : req.body with
  | malformed =>
    exact ⟨400, db, rfl, by simp [hb], Or.inl rfl⟩
  | parsedNull =>
    exact absurd hb hnull
  | parsed ev =>
    cases hts : jsOrS (ev.getD ⟨none, none⟩).type none with
    | none =>
      refine ⟨400, db, by simp [hts], ?_, Or.inl rfl⟩
      simp [hb, missingShape, hts]
    | some t =>
      cases hdt : (ev.getD ⟨none, none⟩).data with
      | none =>
        refine ⟨400, db, by simp [hts, hdt], ?_, Or.inl rfl⟩
        simp [hb, missingShape, hts, hdt]
      | some data =>
        cases hlc : lookupCharge db.charges (data.id.getD "undefined") with
        | none =>
          refine ⟨200, db, by simp [hts, hdt, hlc], ?_, Or.inr rfl⟩
          simp [hb, missingShape, hts, hdt]
        | some charge =>
          refine ⟨200, applyDispatch db charge
              (dispatch charge ((lookupBal db.balances
                (charge.user_id, charge.asset)).getD 0) db.txs.length t data),
            by simp [hts, hdt, hlc], ?_, Or.inr rfl⟩
          simp [hb, missingShape, hts, hdt]

/-- Witness for C6 as amended at a validly signed confirmed event and
at a validly signed `null` body. -/
theorem C6_amended_ack_or_badreq_witness :
    (∃ st db2, webhookHandler reqConfirmed db0 = Outcome.resp st db2 ∧
      ((st = 400) ↔ (reqConfirmed.body = Body.malformed ∨
        missingShape reqConfirmed.body = true)) ∧
      (st = 400 ∨ st = 200)) ∧
    webhookHandler reqNullBody db0 = Outcome.exn db0 :=
  ⟨(C6_amended_ack_or_badreq reqConfirmed db0 (by decide) (by decide)).2 (by decide),
   (C6_amended_ack_or_badreq reqNullBody db0 (by decide) (by decide)).1 rfl⟩

/-- C9: a validly signed, well-formed event whose provider charge id
matches no stored charge is acknowledged 200 and the store is returned
exactly as it was — no charge, balance, transaction or audit row is
created or modified. -/
theorem C9_unknown_charge_no_writes :
    ∀ (req : Request) (db : DB) (t : String) (data : EventData),
      req.secretConfigured = true →
      req.signature.getD "" = req.expectedSig →
      req.body = Body.parsed (some ⟨some t, some data⟩) →
      t ≠ "" →
      lookupCharge db.charges (data.id.getD "undefined") = none →
      webhookHandler req db = Outcome.resp 200 db := by
  intro req db t data hsec hsig hbody ht hlook
  rw [webhookHandler_valid req db hsec hsig, hbody]
  have hts : jsOrS (some t) none = some t := by
    unfold jsOrS
    simp [ht]
  simp [hts, hlook]

/-- A validly signed confirmed event naming a provider charge id that
is not in the store. -/
def reqUnknown : Request :=
  { secretConfigured := true, expectedSig := hexSig, signature := some hexSig,
    body := Body.parsed (some ⟨some "charge:confirmed",
      some ⟨some "zz9", [pConf 3 5]⟩⟩) }

/-- Witness for C9 at the sample store. -/
theorem C9_unknown_charge_no_writes_witness :
    webhookHandler reqUnknown db0 = Outcome.resp 200 db0 :=
  C9_unknown_charge_no_writes reqUnknown db0 "charge:confirmed"
    ⟨some "zz9", [pConf 3 5]⟩ (by decide) (by decide) rfl (by decide) (by decide)

/-! ### Helper lemmas on the balance store and transaction updates -/

/-- Reading back the key just written by `setBal`. -/
theorem lookupBal_setBal (bals : List (BalKey × Int)) (k : BalKey) (v : Int) :
    lookupBal (setBal bals k v) k = some v := by
  induction bals with
  | nil => simp [setBal, lookupBal, List.find?]
  | cons e rest ih =>
    by_cases he : e.1 = k
    · simp [setBal, he, lookupBal, List.find?]
    · simp only [setBal, if_neg he]
      simpa [lookupBal, List.find?, he] using ih

/-- A status patch by id rewrites the row `find?` locates. -/
theorem find_status_update (l : List Txn) (txId : Nat) (st : String) (tx : Txn)
    (h : l.find? (fun t => t.id = txId) = some tx) :
    (l.map (fun t => if t.id = txId then { t with status := st } else t)).find?
      (fun t => t.id = txId) = some { tx with status := st } := by
  induction l with
  | nil => simp at h
  | cons a l ih =>
    by_cases ha : a.id = txId
    · have hax : a = tx := by simpa [List.find?, ha] using h
      subst hax
      simp [List.find?, ha]
    · have htl : l.find? (fun t => t.id = txId) = some tx := by
        simpa [List.find?, ha] using h
      simpa [List.find?, ha] using ih htl

/-- Reduction of the admin status transition when the status is allowed,
the transaction is found, and the new status differs from the old. -/
theorem adminTransactionUpdate_eq (db : AdminDB) (txId : Nat) (st : String)
    (tx : Txn) (hfind : db.txs.find? (fun t => t.id = txId) = some tx)
    (hallow : ALLOWED_STATUSES.contains st = true)
    (hne : tx.status ≠ st) :
    adminTransactionUpdate db txId st =
      ⟨200,
       { txs := db.txs.map (fun t =>
           if t.id = txId then { t with status := st } else t)
         balances :=
           if tx.type = "withdrawal" ∧ (st = "failed" ∨ st = "cancelled") ∧
              tx.status ≠ "failed" ∧ tx.status ≠ "cancelled" then
             match upsert_balance db.balances (tx.user_id, tx.asset)
                 (tx.amount + tx.fee_amount.getD 0) with
             | .ok out => out.1
             | .error _ => db.balances
           else db.balances
         audits := db.audits + 1 }⟩ := by
  unfold adminTransactionUpdate
  rw [hallow, hfind]
  simp [hne]

/-- When the located transaction is already `failed` or `cancelled`, a
further status transition applies no balance mutation. -/
theorem adminTransactionUpdate_no_refund (db : AdminDB) (txId : Nat)
    (st2 : String) (tx : Txn)
    (hfind : db.txs.find? (fun t => t.id = txId) = some tx)
    (hterm : tx.status = "failed" ∨ tx.status = "cancelled") :
    (adminTransactionUpdate db txId st2).db.balances = db.balances := by
  unfold adminTransactionUpdate
  by_cases hallow2 : ALLOWED_STATUSES.contains st2 = true
  · rw [hallow2, hfind]
    by_cases hne2 : tx.status = st2
    · simp [hne2]
    · have hng : ¬(tx.type = "withdrawal" ∧ (st2 = "failed" ∨ st2 = "cancelled") ∧
          tx.status ≠ "failed" ∧ tx.status ≠ "cancelled") := by
        intro hg
        rcases hterm with h | h <;> simp [h] at hg
      simp [hne2, hng]
  · rw [Bool.not_eq_true] at hallow2
    rw [hallow2]
    simp

/-! ### C3 -/

/-- A completed ETH withdrawal of 1000 units with a 1 unit fee. -/
def wTx : Txn :=
  { id := 1
    user_id := 7
    type := "withdrawal"
    asset := "ETH"
    amount := 1000
    usd_value := some 3500
    fee_amount := some 1
    status := "completed"
    tx_hash := none }

/-- Store holding just the completed withdrawal. -/
def adbC3 : AdminDB := { txs := [wTx], balances := [], audits := 0 }

/-- Counterexample to C3: the refund guard only checks that the previous
status is neither `failed` nor `cancelled`, so an already-terminal
`completed` withdrawal transitioned to `cancelled` IS refunded by
`amount + fee` — the claim says a transition attempt on an
already-terminal transaction (including `completed`) performs no
refund. -/
theorem C3_counterexample_completed_withdrawal_refunded :
    wTx.status = "completed" ∧
    (adminTransactionUpdate adbC3 1 "cancelled").status = 200 ∧
    (adminTransactionUpdate adbC3 1 "cancelled").db.balances = [((7, "ETH"), 1001)] := by
  decide

/-- C3 as amended: the refund of exactly `amount + fee` through the
balance primitive is applied precisely when the transaction is a
withdrawal, the new status is `failed` or `cancelled`, and the previous
status is neither `failed` nor `cancelled` (a `completed` withdrawal is
therefore also refunded); when the previous status is already `failed`
or `cancelled` — in particular on any second transition attempt after a
first failure/cancellation — no refund is applied; and the status write
goes through in every case, even when the refund call is rejected. -/
theorem C3_amended_refund_guard :
    ∀ (db : AdminDB) (txId : Nat) (st : String) (tx : Txn),
      db.txs.find? (fun t => t.id = txId) = some tx →
      ALLOWED_STATUSES.contains st = true →
      tx.status ≠ st →
      ((tx.type = "withdrawal" ∧ (st = "failed" ∨ st = "cancelled") ∧
          tx.status ≠ "failed" ∧ tx.status ≠ "cancelled") →
        0 ≤ (lookupBal db.balances (tx.user_id, tx.asset)).getD 0 +
            (tx.amount + tx.fee_amount.getD 0) →
        (adminTransactionUpdate db txId st).db.balances =
          setBal db.balances (tx.user_id, tx.asset)
            ((lookupBal db.balances (tx.user_id, tx.asset)).getD 0 +
             (tx.amount + tx.fee_amount.getD 0))) ∧
      (¬(tx.type = "withdrawal" ∧ (st = "failed" ∨ st = "cancelled") ∧
          tx.status ≠ "failed" ∧ tx.status ≠ "cancelled") →
        (adminTransactionUpdate db txId st).db.balances = db.balances) ∧
      ((lookupBal db.balances (tx.user_id, tx.asset)).getD 0 +
          (tx.amount + tx.fee_amount.getD 0) < 0 →
        (adminTransactionUpdate db txId st).db.balances = db.balances) ∧
      ((adminTransactionUpdate db txId st).db.txs.find? (fun t => t.id = txId) =
        some { tx with status := st }) ∧
      (adminTransactionUpdate db txId st).status = 200 ∧
      ((st = "failed" ∨ st = "cancelled") →
        ∀ st2, (adminTransactionUpdate (adminTransactionUpdate db txId st).db
            txId st2).db.balances = (adminTransactionUpdate db txId st).db.balances) := by
  intro db txId st tx hfind hallow hne
  have hred := adminTransactionUpdate_eq db txId st tx hfind hallow hne
  refine ⟨?_, ?_, ?_, ?_, ?_, ?_⟩
  · intro hguard hpos
    rw [hred]
    simp only [if_pos hguard]
    unfold upsert_balance
    rw [if_neg (by omega)]
  · intro hguard
    rw [hred]
    simp only [if_neg hguard]
  · intro hneg
    rw [hred]
    by_cases hguard : tx.type = "withdrawal" ∧ (st = "failed" ∨ st = "cancelled") ∧
        tx.status ≠ "failed" ∧ tx.status ≠ "cancelled"
    · simp only [if_pos hguard]
      unfold upsert_balance
      rw [if_pos hneg]
    · simp only [if_neg hguard]
  · rw [hred]
    exact find_status_update db.txs txId st tx hfind
  · rw [hred]
  · intro hterm st2
    have hfind2 : (adminTransactionUpdate db txId st).db.txs.find?
        (fun t => t.id = txId) = some { tx with status := st } := by
      rw [hred]
      exact find_status_update db.txs txId st tx hfind
    exact adminTransactionUpdate_no_refund (adminTransactionUpdate db txId st).db
      txId st2 { tx with status := st } hfind2 hterm

/-- A pending ETH withdrawal of 1000 units with a 1 unit fee. -/
def wTxPending : Txn := { wTx with id := 2, status := "pending" }

/-- Store holding just the pending withdrawal. -/
def adbC3b : AdminDB := { txs := [wTxPending], balances := [], audits := 0 }

/-- Witness for C3 as amended: cancelling the pending withdrawal refunds
1001 units once, and a repeated transition attempt refunds nothing. -/
theorem C3_amended_refund_guard_witness :
    (adminTransactionUpdate adbC3b 2 "cancelled").db.balances =
      setBal adbC3b.balances (wTxPending.user_id, wTxPending.asset)
        ((lookupBal adbC3b.balances (wTxPending.user_id, wTxPending.asset)).getD 0 +
         (wTxPending.amount + wTxPending.fee_amount.getD 0)) ∧
    (adminTransactionUpdate (adminTransactionUpdate adbC3b 2 "cancelled").db
        2 "failed").db.balances =
      (adminTransactionUpdate adbC3b 2 "cancelled").db.balances :=
  ⟨(C3_amended_refund_guard adbC3b 2 "cancelled" wTxPending (by decide) (by decide)
      (by decide)).1 (by decide) (by decide),
   (C3_amended_refund_guard adbC3b 2 "cancelled" wTxPending (by decide) (by decide)
      (by decide)).2.2.2.2.2 (Or.inr rfl) "failed"⟩

/-! ### C7 -/

/-- A pending ETH withdrawal used to exercise the refund failure path. -/
def wTxC7 : Txn := { wTx with id := 3, status := "pending" }

/-- A store whose stored balance is negative enough that the refund
delta cannot bring it to zero, making the refund upsert reject. -/
def adbC7 : AdminDB :=
  { txs := [wTxC7], balances := [((7, "ETH"), -2000)], audits := 0 }

/-- Counterexample to C7: at the refund call site
(admin-transaction-update), the InsufficientFunds rejection is NOT
surfaced — at a store state where the refund upsert rejects, the
operation still answers 200 (the success response) and applies the
status write; the failure is only logged. -/
theorem C7_counterexample_refund_not_surfaced :
    upsert_balance adbC7.balances (7, "ETH")
      (wTxC7.amount + wTxC7.fee_amount.getD 0) =
      Except.error "Insufficient balance" ∧
    (adminTransactionUpdate adbC7 3 "cancelled").status = 200 ∧
    (adminTransactionUpdate adbC7 3 "cancelled").db.balances = adbC7.balances :=
  ⟨rfl, by decide, by decide⟩

/-- C7 as amended: the atomic balance primitive succeeds exactly when
the post-delta amount is non-negative (the row read as 0 when absent),
stores and returns exactly `b + d` on success; the deposit credit,
withdrawal debit, and admin adjustment call sites surface the
InsufficientFunds rejection with no partial mutation (the
transaction-create path answers 400 with the store unchanged, the admin
adjustment answers 400 with the store unchanged, and the webhook credit
path leaves the whole charge state untouched when the rejection is
thrown); the refund call site applies no balance mutation when the
rejection occurs but swallows it instead of surfacing it — the status
write still lands and the operation reports success. -/
theorem C7_applyDelta_atomic :
    (∀ (bals : List (BalKey × Int)) (k : BalKey) (d : Int),
      ((∃ out, upsert_balance bals k d = Except.ok out) ↔
        0 ≤ (lookupBal bals k).getD 0 + d) ∧
      (∀ out, upsert_balance bals k d = Except.ok out →
        out.1 = setBal bals k ((lookupBal bals k).getD 0 + d) ∧
        lookupBal out.1 k = some ((lookupBal bals k).getD 0 + d) ∧
        out.2 = (lookupBal bals k).getD 0 + d)) ∧
    (∀ (db : AdminDB) (userId : Nat) (ty asset : String) (amt fee : Int)
        (usd : Option Int),
      (lookupBal db.balances (userId, asset)).getD 0 +
        (if ty = "deposit" then amt else -(amt + fee)) < 0 →
      transactionCreateCore db userId ty asset amt fee usd = ⟨400, db⟩) ∧
    (∀ (db : AdminDB) (userId : Nat) (asset : String) (delta : Int),
      (lookupBal db.balances (userId, asset)).getD 0 + delta < 0 →
      adminBalanceAdjustCore db userId asset delta = ⟨400, db⟩) ∧
    (∀ (s : ChargeRun) (d : EventData),
      s.charge.credited = false →
      s.charge.confirm_threshold ≤ evConfs s d →
      s.balance + evAmount s d < 0 →
      stepCharge s "charge:confirmed" d = s ∧
      (dispatch s.charge s.balance s.txs.length "charge:confirmed" d).threw = true) ∧
    (∀ (db : AdminDB) (txId : Nat) (st : String) (tx : Txn),
      db.txs.find? (fun t => t.id = txId) = some tx →
      ALLOWED_STATUSES.contains st = true →
      tx.status ≠ st →
      (tx.type = "withdrawal" ∧ (st = "failed" ∨ st = "cancelled") ∧
        tx.status ≠ "failed" ∧ tx.status ≠ "cancelled") →
      (lookupBal db.balances (tx.user_id, tx.asset)).getD 0 +
        (tx.amount + tx.fee_amount.getD 0) < 0 →
      (adminTransactionUpdate db txId st).status = 200 ∧
      (adminTransactionUpdate db txId st).db.balances = db.balances ∧
      (adminTransactionUpdate db txId st).db.txs.find? (fun t => t.id = txId) =
        some { tx with status := st }) := by
  refine ⟨?_, ?_, ?_, ?_, ?_⟩
  · intro bals k d
    constructor
    · constructor
      · rintro ⟨out, hout⟩
        unfold upsert_balance at hout
        by_cases h : (lookupBal bals k).getD 0 + d < 0
        · rw [if_pos h] at hout
          cases hout
        · omega
      · intro h
        exact ⟨_, by unfold upsert_balance; rw [if_neg (by omega)]⟩
    · intro out hout
      unfold upsert_balance at hout
      by_cases h : (lookupBal bals k).getD 0 + d < 0
      · rw [if_pos h] at hout
        cases hout
      · rw [if_neg h] at hout
        cases hout
        exact ⟨rfl, lookupBal_setBal bals k _, rfl⟩
  · intro db userId ty asset amt fee usd hneg
    have herr : upsert_balance db.balances (userId, asset)
        (if ty = "deposit" then amt else -(amt + fee)) =
        Except.error "Insufficient balance" := by
      simp only [upsert_balance]
      rw [if_pos hneg]
    simp only [transactionCreateCore]
    rw [herr]
  · intro db userId asset delta hneg
    have herr : upsert_balance db.balances (userId, asset) delta =
        Except.error "Insufficient balance" := by
      simp only [upsert_balance]
      rw [if_pos hneg]
    simp only [adminBalanceAdjustCore]
    rw [herr]
  · intro s d hcred hge hneg
    have hnlt : ¬ evConfs s d < s.charge.confirm_threshold := not_lt.mpr hge
    unfold evConfs at hnlt
    have hdelta := credit_delta_eq (pickConfirmedPayment d.payments) s.charge.crypto_amount
    have hneg2 : s.balance + extractAmount (pickConfirmedPayment d.payments)
        s.charge.crypto_amount < 0 := by
      unfold evAmount at hneg
      omega
    have hres : dispatch s.charge s.balance s.txs.length "charge:confirmed" d =
        ⟨none, none, none, 0, true⟩ := by
      simp [dispatch, hcred, hnlt, hdelta, hneg2]
    constructor
    · unfold stepCharge
      rw [hres]
      simp
    · rw [hres]
  · intro db txId st tx hfind hallow hne hguard hneg
    have hred := adminTransactionUpdate_eq db txId st tx hfind hallow hne
    refine ⟨by rw [hred], ?_, ?_⟩
    · rw [hred]
      simp only [if_pos hguard]
      unfold upsert_balance
      rw [if_pos hneg]
    · rw [hred]
      exact find_status_update db.txs txId st tx hfind

/-- Store with a 5 unit BTC balance for user 7. -/
def adb0 : AdminDB := { txs := [], balances := [((7, "BTC"), 5)], audits := 0 }

/-- Witness for C7 as amended: a credit of 3 onto 5 succeeds; a
withdrawal of 10+1 against 5 answers 400 untouched; an admin debit of
10 against 5 answers 400 untouched; a webhook credit whose delta would
drive the balance negative leaves the charge state untouched; and a
rejected refund leaves the balances untouched while the status write
still lands. -/
theorem C7_applyDelta_atomic_witness :
    (∃ out, upsert_balance [((7, "BTC"), 5)] (7, "BTC") 3 = Except.ok out) ∧
    transactionCreateCore adb0 7 "withdrawal" "BTC" 10 1 none = ⟨400, adb0⟩ ∧
    adminBalanceAdjustCore adb0 7 "BTC" (-10) = ⟨400, adb0⟩ ∧
    stepCharge sFresh "charge:confirmed" (dConf 3 (-9)) = sFresh ∧
    ((adminTransactionUpdate adbC7 3 "cancelled").db.balances = adbC7.balances ∧
     (adminTransactionUpdate adbC7 3 "cancelled").db.txs.find?
       (fun t => t.id = 3) = some { wTxC7 with status := "cancelled" }) :=
  ⟨(C7_applyDelta_atomic.1 [((7, "BTC"), 5)] (7, "BTC") 3).1.mpr (by decide),
   C7_applyDelta_atomic.2.1 adb0 7 "withdrawal" "BTC" 10 1 none (by decide),
   C7_applyDelta_atomic.2.2.1 adb0 7 "BTC" (-10) (by decide),
   (C7_applyDelta_atomic.2.2.2.1 sFresh (dConf 3 (-9)) (by decide) (by decide)
     (by decide)).1,
   ⟨(C7_applyDelta_atomic.2.2.2.2 adbC7 3 "cancelled" wTxC7 (by decide) (by decide)
      (by decide) (by decide) (by decide)).2.1,
    (C7_applyDelta_atomic.2.2.2.2 adbC7 3 "cancelled" wTxC7 (by decide) (by decide)
      (by decide) (by decide) (by decide)).2.2⟩⟩

/-! ### C10 -/

/-- C10: session verification is total — `getSession` yields null on a
missing cookie header; the cookie-authenticated endpoint always answers
401 or 200, never a server error; and a session is accepted only when
the token splits into a nonempty data part and a nonempty signature
part, the signature equals the digest of the data (so a wrong-length
signature, whose comparison would throw, is caught and yields null),
the data decodes, and the payload is unexpired. -/
theorem C10_session_verification_total :
    (∀ (h : String → String) (d : String → Option SessionPayload) (n : Int),
      getSession h d n none = none) ∧
    (∀ (h : String → String) (d : String → Option SessionPayload) (n : Int)
        (hdr : Option String),
      authUserHandler h d n hdr = 401 ∨ authUserHandler h d n hdr = 200) ∧
    (∀ (h : String → String) (d : String → Option SessionPayload) (n : Int)
        (hdr : Option String) (p : SessionPayload),
      getSession h d n hdr = some p →
      ∃ token data sig,
        parseCookie (hdr.getD "") "apex_session" = some token ∧
        (jsSplit token '.').headD "" = data ∧
        (jsSplit token '.').get? 1 = some sig ∧
        data ≠ "" ∧ sig ≠ "" ∧ sig = h data ∧ d data = some p ∧
        (∀ e, p.exp = some e → e = 0 ∨ n ≤ e)) := by
  refine ⟨?_, ?_, ?_⟩
  · intro h d n
    rfl
  · intro h d n hdr
    unfold authUserHandler
    cases hpc : parseCookie (hdr.getD "") "apex_session" with
    | none => exact Or.inl rfl
    | some token =>
      dsimp only
      by_cases ht : token = ""
      · rw [if_pos ht]
        exact Or.inl rfl
      · rw [if_neg ht]
        cases hv : verifyPayload h d token with
        | none => exact Or.inl rfl
        | some p =>
          dsimp only
          cases hexp : p.exp with
          | none => exact Or.inr rfl
          | some e =>
            dsimp only
            by_cases hcond : e ≠ 0 ∧ n > e
            · rw [if_pos hcond]
              exact Or.inl rfl
            · rw [if_neg hcond]
              exact Or.inr rfl
  · intro h d n hdr p hget
    unfold getSession at hget
    cases hpc : parseCookie (hdr.getD "") "apex_session" with
    | none =>
      rw [hpc] at hget
      simp at hget
    | some token =>
      rw [hpc] at hget
      simp only [verifyTokenE] at hget
      cases hs1 : (jsSplit token '.').get? 1 with
      | none =>
        rw [hs1] at hget
        simp at hget
      | some sig =>
        rw [hs1] at hget
        dsimp only at hget
        by_cases hdata : (jsSplit token '.').headD "" = ""
        · rw [if_pos hdata] at hget
          simp at hget
        · rw [if_neg hdata] at hget
          by_cases hsig0 : sig = ""
          · rw [if_pos hsig0] at hget
            simp at hget
          · rw [if_neg hsig0] at hget
            by_cases hlen : sig.length ≠ (h ((jsSplit token '.').headD "")).length
            · rw [if_pos hlen] at hget
              simp at hget
            · rw [if_neg hlen] at hget
              by_cases hne : sig ≠ h ((jsSplit token '.').headD "")
              · rw [if_pos hne] at hget
                simp at hget
              · rw [if_neg hne] at hget
                push_neg at hne
                cases hd : d ((jsSplit token '.').headD "") with
                | none =>
                  rw [hd] at hget
                  simp at hget
                | some payload =>
                  rw [hd] at hget
                  dsimp only at hget
                  simp only [checkExp] at hget
                  cases hexp : payload.exp with
                  | none =>
                    rw [hexp] at hget
                    dsimp only at hget
                    simp only [Option.some.injEq] at hget
                    subst hget
                    refine ⟨token, (jsSplit token '.').headD "", sig, rfl, rfl, hs1,
                      hdata, hsig0, hne, hd, ?_⟩
                    intro e he
                    rw [hexp] at he
                    cases he
                  | some e =>
                    rw [hexp] at hget
                    dsimp only at hget
                    by_cases hc : e ≠ 0 ∧ n > e
                    · rw [if_pos hc] at hget
                      simp at hget
                    · rw [if_neg hc] at hget
                      simp only [Option.some.injEq] at hget
                      subst hget
                      refine ⟨token, (jsSplit token '.').headD "", sig, rfl, rfl, hs1,
                        hdata, hsig0, hne, hd, ?_⟩
                      intro e2 he2
                      rw [hexp] at he2
                      cases he2
                      by_cases he0 : e = 0
                      · exact Or.inl he0
                      · refine Or.inr ?_
                        have := fun hgt => hc ⟨he0, hgt⟩
                        omega

/-- A sample decoded session payload without expiry. -/
def pEx : SessionPayload := ⟨"auth0-u1", "u@example.com", none⟩

/-- A sample digest function mapping every data part to SIGVAL. -/
def hmacEx : String → String := fun _ => "SIGVAL"

/-- A sample decoder accepting exactly the data part DATA. -/
def decodeEx : String → Option SessionPayload :=
  fun s => if s = "DATA" then some pEx else none

/-- Witness for C10: a missing header yields null; a dot-less cookie is
answered 401 or 200 (in fact 401); and a well-formed signed cookie is
accepted with all verification facts in evidence. -/
theorem C10_session_verification_total_witness :
    getSession hmacEx decodeEx 0 none = none ∧
    (authUserHandler hmacEx decodeEx 0 (some "apex_session=DATA") = 401 ∨
     authUserHandler hmacEx decodeEx 0 (some "apex_session=DATA") = 200) ∧
    (∃ token data sig,
      parseCookie ((some "apex_session=DATA.SIGVAL" : Option String).getD "")
        "apex_session" = some token ∧
      (jsSplit token '.').headD "" = data ∧
      (jsSplit token '.').get? 1 = some sig ∧
      data ≠ "" ∧ sig ≠ "" ∧ sig = hmacEx data ∧ decodeEx data = some pEx ∧
      (∀ e, pEx.exp = some e → e = 0 ∨ (0 : Int) ≤ e)) :=
  ⟨C10_session_verification_total.1 hmacEx decodeEx 0,
   C10_session_verification_total.2.1 hmacEx decodeEx 0 (some "apex_session=DATA"),
   C10_session_verification_total.2.2 hmacEx decodeEx 0
     (some "apex_session=DATA.SIGVAL") pEx (by decide)⟩

end Apex
